import Mathlib

/-!
Formal model of the `ml_service` pipeline of the SDSI-MEMO repository.

The development shallowly embeds the core of the Python sources:

* `predictClass.py` — spectral validation (`validate_signal_characteristics`)
  and the decision-fusion step of `predict_from_file`, plus the
  name extraction of `extract_signals_from_mat`;
* `utils.py` — `convert_mat_to_npz`: the two container layouts, the
  missing-channel and length checks, stacking, and per-channel
  normalization;
* `machine.py` — `SignalGenerator`: the synthetic signal generators and
  `save_signals`, serializing into the structured-record container layout.

Numeric conventions of the embedding:

* exact arithmetic replaces floating point: rationals where the code is
  decidable, reals (with `Real.sqrt`, `Real.sin`, `Real.pi`) where the
  code computes standard deviations or trigonometric waveforms;
* `numpy` reductions `mean`/`std` over a 1-D array become `meanQ`/`varQ`
  (rationals) and `meanR`/`varR`/`stdR` (reals); `np.std` is the
  population standard deviation, the square root of `varR`;
* a comparison `x > mean + 2*std` is encoded on rationals by the
  equivalent square-free test `x > mean AND (x - mean)^2 > 4*var`
  (theorem `two_sigma_charac` proves the equivalence over the reals);
* `np.random.randn` noise vectors and the external FFT are inputs of the
  embedded functions, not recomputed (the code treats them as opaque
  numeric sources);
* Python exceptions become `Except`/`Option`, and a `try/except` body is
  passed as an `Except`-valued argument.
-/

/-- The three class labels, in the training order of `CLASS_NAMES`
(`predictClass.py` line 11): `['cassure', 'sain', 'desiquilibre']`. -/
inductive MotorClass
  | cassure
  | sain
  | desiquilibre
deriving DecidableEq

/-- The four boolean signal-pattern flags built by
`validate_signal_characteristics` (`predictClass.py` lines 44-49). -/
structure Patterns where
  base_freq : Bool
  mod_25hz : Bool
  sideband_100hz : Bool
  phase_balance : Bool
deriving DecidableEq

/-- The per-class probabilities held in `class_probs`
(`predictClass.py` line 110). -/
structure Probs where
  cassure : ℚ
  sain : ℚ
  desiquilibre : ℚ
deriving DecidableEq

/-- The (label, confidence, class probabilities) part of the dictionary
returned by `predict_from_file` (`predictClass.py` lines 171-180). -/
structure FusionResult where
  label : MotorClass
  confidence : ℚ
  probs : Probs
deriving DecidableEq

/-- The label-specific agreement test of `predict_from_file`
(`predictClass.py` lines 121-134): starting from `is_valid = True`, the
branch matching the predicted class may flip it to `False`. -/
def validFor (cls : MotorClass) (p : Patterns) : Bool :=
  match cls with
  | .sain => p.base_freq
  | .desiquilibre => p.mod_25hz && p.phase_balance
  | .cassure => p.sideband_100hz

/-- The decision-fusion step of `predict_from_file`
(`predictClass.py` lines 117-151).  When `signal_patterns` is absent the
whole block is skipped; otherwise, if the agreement test failed or the
confidence is below `CONFIDENCE_THRESHOLD = 0.7`, the prediction is
adjusted: forced to `sain` when `base_freq` holds without either fault
indicator, else kept with the confidence capped at `0.6`. -/
def decisionFusion (patterns : Option Patterns) (cls : MotorClass)
    (conf : ℚ) (probs : Probs) : FusionResult :=
  match patterns with
  | none => ⟨cls, conf, probs⟩
  | some p =>
    if validFor cls p = false ∨ conf < 7/10 then
      if p.base_freq && !p.sideband_100hz && !p.mod_25hz then
        let conf2 := max conf (65/100)
        ⟨.sain, conf2,
          ⟨min (3/10) probs.cassure, max conf2 probs.sain,
            min (3/10) probs.desiquilibre⟩⟩
      else
        ⟨cls, min conf (6/10), probs⟩
    else
      ⟨cls, conf, probs⟩

/-- The exception guard of `validate_signal_characteristics`
(`predictClass.py` lines 25-59): the body of the `try` block is passed as
an `Except`-valued computation; any exception is swallowed and reported as
`None` (line 59). -/
def validate_signal_characteristics (analysis : Except String Patterns) :
    Option Patterns :=
  match analysis with
  | .ok p => some p
  | .error _ => none

/-- C1: whenever a spectral pattern is present and the agreement test fails
or the raw confidence is below 0.7, then: if the pattern has `base_freq`
true and both `sideband_100hz` and `mod_25hz` false, the label is forced to
`sain`, the confidence becomes `max(confidence, 0.65)`, the `cassure` and
`desiquilibre` probabilities are clamped to at most 0.3 each (never raised),
and the `sain` probability is raised to at least the new confidence; in
every other case the original label is kept and the confidence is capped
at 0.6 (the probabilities are untouched). -/
theorem c1_fusion_low_trust_override (p : Patterns) (cls : MotorClass)
    (conf : ℚ) (probs : Probs)
    (h : validFor cls p = false ∨ conf < 7/10) :
    (p.base_freq = true → p.sideband_100hz = false → p.mod_25hz = false →
      decisionFusion (some p) cls conf probs =
        ⟨.sain, max conf (65/100),
          ⟨min (3/10) probs.cassure, max (max conf (65/100)) probs.sain,
            min (3/10) probs.desiquilibre⟩⟩ ∧
      (decisionFusion (some p) cls conf probs).probs.cassure ≤ 3/10 ∧
      (decisionFusion (some p) cls conf probs).probs.cassure ≤ probs.cassure ∧
      (decisionFusion (some p) cls conf probs).probs.desiquilibre ≤ 3/10 ∧
      (decisionFusion (some p) cls conf probs).probs.desiquilibre ≤ probs.desiquilibre ∧
      (decisionFusion (some p) cls conf probs).confidence ≤
        (decisionFusion (some p) cls conf probs).probs.sain) ∧
    (¬(p.base_freq = true ∧ p.sideband_100hz = false ∧ p.mod_25hz = false) →
      (decisionFusion (some p) cls conf probs).label = cls ∧
      (decisionFusion (some p) cls conf probs).confidence = min conf (6/10) ∧
      (decisionFusion (some p) cls conf probs).probs = probs) := by
  obtain ⟨bf, m25, sb, pb⟩ := p
  constructor
  · rintro rfl rfl rfl
    simp only [decisionFusion, if_pos h, Bool.not_false, Bool.and_self,
      Bool.true_and, if_pos rfl]
    refine ⟨rfl, min_le_left _ _, min_le_right _ _, min_le_left _ _,
      min_le_right _ _, le_max_left _ _⟩
  · intro hn
    cases bf <;> cases sb <;> cases m25 <;>
      simp_all [decisionFusion, if_pos h]

/-- Witness for C1 at the concrete input of the spec's "decision fusion
override" test: confidence 0.5, pattern base-frequency only. -/
theorem c1_fusion_low_trust_override_witness :
    (validFor .cassure ⟨true, false, false, true⟩ = false ∨ (1/2 : ℚ) < 7/10) ∧
    ((Patterns.base_freq ⟨true, false, false, true⟩ = true →
      Patterns.sideband_100hz ⟨true, false, false, true⟩ = false →
      Patterns.mod_25hz ⟨true, false, false, true⟩ = false →
      decisionFusion (some ⟨true, false, false, true⟩) .cassure (1/2) ⟨1/2, 3/10, 1/5⟩ =
        ⟨.sain, max (1/2) (65/100),
          ⟨min (3/10) (Probs.cassure ⟨1/2, 3/10, 1/5⟩),
            max (max (1/2) (65/100)) (Probs.sain ⟨1/2, 3/10, 1/5⟩),
            min (3/10) (Probs.desiquilibre ⟨1/2, 3/10, 1/5⟩)⟩⟩ ∧
      (decisionFusion (some ⟨true, false, false, true⟩) .cassure (1/2) ⟨1/2, 3/10, 1/5⟩).probs.cassure ≤ 3/10 ∧
      (decisionFusion (some ⟨true, false, false, true⟩) .cassure (1/2) ⟨1/2, 3/10, 1/5⟩).probs.cassure ≤ Probs.cassure ⟨1/2, 3/10, 1/5⟩ ∧
      (decisionFusion (some ⟨true, false, false, true⟩) .cassure (1/2) ⟨1/2, 3/10, 1/5⟩).probs.desiquilibre ≤ 3/10 ∧
      (decisionFusion (some ⟨true, false, false, true⟩) .cassure (1/2) ⟨1/2, 3/10, 1/5⟩).probs.desiquilibre ≤ Probs.desiquilibre ⟨1/2, 3/10, 1/5⟩ ∧
      (decisionFusion (some ⟨true, false, false, true⟩) .cassure (1/2) ⟨1/2, 3/10, 1/5⟩).confidence ≤
        (decisionFusion (some ⟨true, false, false, true⟩) .cassure (1/2) ⟨1/2, 3/10, 1/5⟩).probs.sain) ∧
    (¬(Patterns.base_freq ⟨true, false, false, true⟩ = true ∧
        Patterns.sideband_100hz ⟨true, false, false, true⟩ = false ∧
        Patterns.mod_25hz ⟨true, false, false, true⟩ = false) →
      (decisionFusion (some ⟨true, false, false, true⟩) .cassure (1/2) ⟨1/2, 3/10, 1/5⟩).label = .cassure ∧
      (decisionFusion (some ⟨true, false, false, true⟩) .cassure (1/2) ⟨1/2, 3/10, 1/5⟩).confidence = min (1/2) (6/10) ∧
      (decisionFusion (some ⟨true, false, false, true⟩) .cassure (1/2) ⟨1/2, 3/10, 1/5⟩).probs = ⟨1/2, 3/10, 1/5⟩)) :=
  ⟨Or.inl rfl,
    c1_fusion_low_trust_override ⟨true, false, false, true⟩ .cassure (1/2)
      ⟨1/2, 3/10, 1/5⟩ (Or.inl rfl)⟩

/-- C9: if the spectral-validation body raises (an `Except.error`), the
validator returns an absent pattern instead of propagating, and decision
fusion then returns the raw model prediction unmodified, so a
spectral-validation failure never changes or aborts the prediction. -/
theorem c9_spectral_failure_graceful (e : String) (cls : MotorClass)
    (conf : ℚ) (probs : Probs) :
    validate_signal_characteristics (.error e) = none ∧
    decisionFusion (validate_signal_characteristics (.error e)) cls conf probs =
      ⟨cls, conf, probs⟩ :=
  ⟨rfl, rfl⟩

/-- Rational embedding of `np.mean` over a 1-D array (empty list: 0). -/
def meanQ (xs : List ℚ) : ℚ := xs.sum / xs.length

/-- Rational embedding of the square of `np.std` (population variance)
over a 1-D array. -/
def varQ (xs : List ℚ) : ℚ := meanQ (xs.map (fun x => (x - meanQ xs)^2))

/-- Characterization of the two-sigma outlier threshold used below: over
the reals, `mean + 2*std < m` holds exactly when `mean < m` and
`(m - mean)^2 > 4*var`, where `std = sqrt var`.  This justifies the
square-free rational encoding of `isDominant`. -/
theorem two_sigma_charac (μ v m : ℝ) (hv : 0 ≤ v) :
    μ + 2 * Real.sqrt v < m ↔ (μ < m ∧ 4 * v < (m - μ)^2) := by
  constructor
  · intro h
    have h0 := Real.sqrt_nonneg v
    have hsq := Real.sq_sqrt hv
    constructor
    · linarith
    · nlinarith [h0, hsq]
  · rintro ⟨h1, h2⟩
    have h0 := Real.sqrt_nonneg v
    have hsq := Real.sq_sqrt hv
    nlinarith [h0, hsq, sq_nonneg (m - μ - 2 * Real.sqrt v)]

/-- The dominance test of `validate_signal_characteristics`
(`predictClass.py` lines 36-37): a magnitude is dominant when it exceeds
`np.mean(magnitudes) + 2*np.std(magnitudes)`, encoded square-free on the
rationals (see `two_sigma_charac`). -/
def isDominant (mags : List ℚ) (m : ℚ) : Bool :=
  decide (meanQ mags < m) && decide (4 * varQ mags < (m - meanQ mags)^2)

/-- The frequencies of the dominant bins in spectrum order —
`freqs[magnitudes > threshold]` of `predictClass.py` line 37. -/
def dominantRaw (freqs mags : List ℚ) : List ℚ :=
  ((freqs.zip mags).filter (fun p => isDominant mags p.2)).map Prod.fst

/-- The dominant-frequency list of `predictClass.py` line 38:
`np.abs(dominant_freqs[:len(dominant_freqs)//2])` — the absolute values of
the FIRST HALF of the dominant-bin list. -/
def dominant_freqs (freqs mags : List ℚ) : List ℚ :=
  let df := dominantRaw freqs mags
  (df.take (df.length / 2)).map (fun f => |f|)

/-- Follows the spec's words: the absolute frequencies of dominant bins
restricted to the first half of the spectrum (positive frequencies only),
i.e. the dominant bins with nonnegative frequency. -/
def dominantSpecHalf (freqs mags : List ℚ) : List ℚ :=
  ((freqs.zip mags).filter
    (fun p => isDominant mags p.2 && decide (0 ≤ p.1))).map (fun p => |p.1|)

/-- `dominantSpecHalf` is the nonnegative-frequency restriction of the
dominant-bin list. -/
theorem dominantSpecHalf_eq_filter (freqs mags : List ℚ) :
    dominantSpecHalf freqs mags =
      ((dominantRaw freqs mags).filter (fun f => decide (0 ≤ f))).map
        (fun f => |f|) := by
  unfold dominantSpecHalf dominantRaw
  generalize freqs.zip mags = l
  induction l with
  | nil => rfl
  | cons a l ih =>
    by_cases h1 : isDominant mags a.2 = true
    · by_cases h2 : (0:ℚ) ≤ a.1
      · simp [List.filter_cons, h1, h2, ih]
      · simp [List.filter_cons, h1, h2, ih]
    · simp [List.filter_cons, h1, ih]

/-- C3 (amended): a bin is dominant iff its magnitude exceeds
`mean + 2*std` over the full spectrum, and the dominant-frequency list used
by the pattern tests is the absolute values of the FIRST HALF (by count) of
the dominant-bin list; when the dominant bins consist of positive
frequencies followed by their mirrored negatives (no dominant DC bin), this
coincides with the spec's positive-half restriction. -/
theorem c3_dominant_first_half (freqs mags : List ℚ) (P : List ℚ)
    (hpos : ∀ f ∈ P, 0 < f)
    (hsym : dominantRaw freqs mags = P ++ (P.map (fun f => -f)).reverse) :
    dominant_freqs freqs mags = P ∧
    dominant_freqs freqs mags = dominantSpecHalf freqs mags := by
  have habs : P.map (fun f => |f|) = P :=
    (List.map_congr_left (fun f hf => abs_of_pos (hpos f hf))).trans
      (List.map_id P)
  have htake : dominant_freqs freqs mags = P := by
    show ((dominantRaw freqs mags).take
      ((dominantRaw freqs mags).length / 2)).map (fun f => |f|) = P
    rw [hsym]
    have hl : (P ++ (P.map (fun f => -f)).reverse).length = P.length + P.length := by
      simp
    rw [hl]
    have h2 : (P.length + P.length) / 2 = P.length := by omega
    rw [h2, List.take_left, habs]
  have hspec : dominantSpecHalf freqs mags = P := by
    rw [dominantSpecHalf_eq_filter, hsym, List.filter_append]
    have h1 : P.filter (fun f => decide (0 ≤ f)) = P :=
      List.filter_eq_self.mpr (fun a ha => decide_eq_true (le_of_lt (hpos a ha)))
    have h2 : ((P.map (fun f => -f)).reverse).filter (fun f => decide (0 ≤ f)) = [] := by
      rw [List.filter_eq_nil_iff]
      intro a ha
      rw [List.mem_reverse, List.mem_map] at ha
      obtain ⟨f, hf, rfl⟩ := ha
      simp only [decide_eq_true_eq, not_le]
      exact neg_lt_zero.mpr (hpos f hf)
    rw [h1, h2, List.append_nil, habs]
  exact ⟨htake, htake.trans hspec.symm⟩

/-- Witness for C3 (amended) on a 12-bin spectrum with a symmetric pair of
dominant bins at frequencies 1 and -1. -/
theorem c3_dominant_first_half_witness :
    ((∀ f ∈ ([1] : List ℚ), 0 < f) ∧
      dominantRaw [0, 1, 2, 3, 4, 5, -6, -5, -4, -3, -2, -1]
          [0, 100, 0, 0, 0, 0, 0, 0, 0, 0, 0, 100] =
        [1] ++ (([1] : List ℚ).map (fun f => -f)).reverse) ∧
    (dominant_freqs [0, 1, 2, 3, 4, 5, -6, -5, -4, -3, -2, -1]
        [0, 100, 0, 0, 0, 0, 0, 0, 0, 0, 0, 100] = [1] ∧
      dominant_freqs [0, 1, 2, 3, 4, 5, -6, -5, -4, -3, -2, -1]
          [0, 100, 0, 0, 0, 0, 0, 0, 0, 0, 0, 100] =
        dominantSpecHalf [0, 1, 2, 3, 4, 5, -6, -5, -4, -3, -2, -1]
          [0, 100, 0, 0, 0, 0, 0, 0, 0, 0, 0, 100]) := by
  have hpos : ∀ f ∈ ([1] : List ℚ), 0 < f := by
    intro f hf
    rw [List.mem_singleton] at hf
    rw [hf]
    norm_num
  have h1 : meanQ [0, 100, 0, 0, 0, 0, 0, 0, 0, 0, 0, 100] = 50/3 := by
    simp [meanQ]
    norm_num
  have h2 : varQ [0, 100, 0, 0, 0, 0, 0, 0, 0, 0, 0, 100] = 12500/9 := by
    simp [varQ, h1, meanQ]
    norm_num
  have hd100 : isDominant [0, 100, 0, 0, 0, 0, 0, 0, 0, 0, 0, 100] 100 = true := by
    simp only [isDominant, h1, h2, Bool.and_eq_true, decide_eq_true_eq]
    constructor <;> norm_num
  have hd0 : isDominant [0, 100, 0, 0, 0, 0, 0, 0, 0, 0, 0, 100] 0 = false := by
    have hlt : ¬ (meanQ [0, 100, 0, 0, 0, 0, 0, 0, 0, 0, 0, 100] < 0) := by
      rw [h1]
      norm_num
    simp [isDominant, hlt]
  have hsym : dominantRaw [0, 1, 2, 3, 4, 5, -6, -5, -4, -3, -2, -1]
      [0, 100, 0, 0, 0, 0, 0, 0, 0, 0, 0, 100] =
      [1] ++ (([1] : List ℚ).map (fun f => -f)).reverse := by
    simp [dominantRaw, List.zip, hd100, hd0, List.filter]
  exact ⟨⟨hpos, hsym⟩,
    c3_dominant_first_half _ _ [1] hpos hsym⟩

/-- C3 counterexample: on a spectrum whose only dominant bin is the DC bin
(frequency 0), the code's `dominant_freqs[:k//2]` slice returns the empty
list, while the spec's "dominant bins restricted to the first half of the
spectrum" contains frequency 0 — the two sets differ. -/
theorem c3_counterexample :
    dominant_freqs [0, 1, 2, -3, -2, -1] [100, 0, 0, 0, 0, 0] = [] ∧
    dominantSpecHalf [0, 1, 2, -3, -2, -1] [100, 0, 0, 0, 0, 0] = [0] ∧
    dominant_freqs [0, 1, 2, -3, -2, -1] [100, 0, 0, 0, 0, 0] ≠
      dominantSpecHalf [0, 1, 2, -3, -2, -1] [100, 0, 0, 0, 0, 0] := by
  have h1 : meanQ [100, 0, 0, 0, 0, 0] = 50/3 := by
    simp [meanQ]
    norm_num
  have h2 : varQ [100, 0, 0, 0, 0, 0] = 12500/9 := by
    simp [varQ, h1, meanQ]
    norm_num
  have hd100 : isDominant [100, 0, 0, 0, 0, 0] 100 = true := by
    simp only [isDominant, h1, h2, Bool.and_eq_true, decide_eq_true_eq]
    constructor <;> norm_num
  have hd0 : isDominant [100, 0, 0, 0, 0, 0] 0 = false := by
    have hlt : ¬ (meanQ [100, 0, 0, 0, 0, 0] < 0) := by
      rw [h1]
      norm_num
    simp [isDominant, hlt]
  have hraw : dominantRaw [0, 1, 2, -3, -2, -1] [100, 0, 0, 0, 0, 0] = [0] := by
    simp [dominantRaw, List.zip, hd100, hd0, List.filter]
  refine ⟨?_, ?_, ?_⟩
  · show ((dominantRaw [0, 1, 2, -3, -2, -1] [100, 0, 0, 0, 0, 0]).take
      ((dominantRaw [0, 1, 2, -3, -2, -1] [100, 0, 0, 0, 0, 0]).length / 2)).map
        (fun f => |f|) = []
    rw [hraw]
    rfl
  · rw [dominantSpecHalf_eq_filter, hraw]
    simp [List.filter]
  · intro hcontra
    have hA : dominant_freqs [0, 1, 2, -3, -2, -1] [100, 0, 0, 0, 0, 0] = [] := by
      show ((dominantRaw [0, 1, 2, -3, -2, -1] [100, 0, 0, 0, 0, 0]).take
        ((dominantRaw [0, 1, 2, -3, -2, -1] [100, 0, 0, 0, 0, 0]).length / 2)).map
          (fun f => |f|) = []
      rw [hraw]
      rfl
    have hB : dominantSpecHalf [0, 1, 2, -3, -2, -1] [100, 0, 0, 0, 0, 0] = [0] := by
      rw [dominantSpecHalf_eq_filter, hraw]
      simp [List.filter]
    rw [hA, hB] at hcontra
    exact List.cons_ne_nil 0 [] hcontra.symm

/-- The 9 required channel names in canonical order
(`REQUIRED_SIGNALS`, `utils.py` line 5). -/
def REQUIRED_SIGNALS : List String :=
  ["i1", "i2", "i3", "v1", "v2", "v3", "vn", "w_m", "vibrad"]

/-- One record of the `Y` sub-array of an `essaisX` structure: a `Name`
path string (held as a character list) and a `Data` numeric sequence.  The
further fields (`Type`, `Unit`, `XIndex`, `Plot`, `Capture`, ...) are never
consulted by the parsers and are omitted. -/
structure SignalEntry (α : Type) where
  Name : List Char
  Data : List α
deriving DecidableEq

/-- An `essaisX` structure as loaded by `scipy.io.loadmat`: the `Y`
sub-array when the attribute exists (`hasattr(essais, 'Y')`), and the
remaining direct attributes. -/
structure EssaisStruct (α : Type) where
  Y : Option (List (SignalEntry α))
  attrs : List (String × List α)
deriving DecidableEq

/-- A loaded `.mat` container: at most one top-level entry whose key starts
with `essais`, plus the flat top-level entries keyed by name. -/
structure MatContainer (α : Type) where
  essais : Option (EssaisStruct α)
  flat : List (String × List α)
deriving DecidableEq

/-- The structured-layout phase of `convert_mat_to_npz` (`utils.py` lines
19-64): when an `essaisX` entry exists, the records of its `Y` sub-array
are assigned the required names BY POSITION
(`signals[REQUIRED_SIGNALS[i]] = data of Y[i]`, lines 42-44 for the
structured-array form and lines 48-56 for the object-array form — the
record's `Name` field is never read); when `Y` yields nothing, the
required names are looked up as direct attributes of the `essaisX`
structure (lines 59-64). -/
def structuredSignals {α : Type} (c : MatContainer α) :
    List (String × List α) :=
  match c.essais with
  | none => []
  | some e =>
    let fromY :=
      match e.Y with
      | some ys =>
        List.zipWith (fun n (r : SignalEntry α) => (n, r.Data)) REQUIRED_SIGNALS ys
      | none => []
    if fromY.isEmpty then
      REQUIRED_SIGNALS.filterMap (fun n => (e.attrs.lookup n).map (fun d => (n, d)))
    else fromY

/-- The flat-layout phase of `convert_mat_to_npz` (`utils.py` lines
67-75): each required name is looked up as a top-level entry. -/
def flatSignals {α : Type} (c : MatContainer α) : List (String × List α) :=
  REQUIRED_SIGNALS.filterMap (fun n => (c.flat.lookup n).map (fun d => (n, d)))

/-- The complete extraction phase of `convert_mat_to_npz` (`utils.py`
lines 16-75): the flat layout is attempted only when the structured phase
produced NO signals at all (`if not signals:`, line 67). -/
def extractSignals {α : Type} (c : MatContainer α) : List (String × List α) :=
  let s := structuredSignals c
  if s.isEmpty then flatSignals c else s

deriving instance DecidableEq for Except

/-- The two failure modes of `convert_mat_to_npz` (`utils.py` lines
80-88): the missing-channel error listing the missing names, and the
length error naming the offending channel and its length. -/
inductive ConvError
  | missing (names : List String)
  | badLength (name : String) (len : ℕ)
deriving DecidableEq

/-- The required names absent from a channel list
(`utils.py` line 81: `[sig for sig in REQUIRED_SIGNALS if sig not in signals]`). -/
def missingSignals {α : Type} (s : List (String × List α)) : List String :=
  REQUIRED_SIGNALS.filter (fun n => !(s.map Prod.fst).contains n)

/-- The validation-and-stacking phase of `convert_mat_to_npz` (`utils.py`
lines 80-91): the missing-channel check first, then the per-channel length
check (first offender reported, in insertion order), then the stack
ordered by the canonical name sequence. -/
def validateChannels {α : Type} (s : List (String × List α)) :
    Except ConvError (List (List α)) :=
  if missingSignals s ≠ [] then .error (.missing (missingSignals s))
  else
    match s.find? (fun p => p.2.length != 50001) with
    | some p => .error (.badLength p.1 p.2.length)
    | none => .ok (REQUIRED_SIGNALS.filterMap (fun n => s.lookup n))

/-- `convert_mat_to_npz` from the loaded container up to the stacked
channel rows (normalization is the separate final step, modelled over the
reals below). -/
def convertStack {α : Type} (c : MatContainer α) :
    Except ConvError (List (List α)) :=
  validateChannels (extractSignals c)

/-- C4 (amended): the parser attempts the structured-record layout first,
but attempts the flat layout ONLY when the structured attempt recovered no
channel at all; when the structured attempt recovered at least one channel
the flat layout is never consulted, so the result always comes from a
single layout. -/
theorem c4_flat_layout_only_from_empty {α : Type} (c : MatContainer α) :
    (structuredSignals c = [] → extractSignals c = flatSignals c) ∧
    (structuredSignals c ≠ [] → extractSignals c = structuredSignals c) := by
  unfold extractSignals
  constructor
  · intro h
    simp [h]
  · intro h
    simp [List.isEmpty_iff, h]

/-- The container refuting C4 as stated: the structured layout yields a
single (positionally named) channel, every required name is present as a
flat entry, yet the parser never consults the flat layout. -/
def demoContainer : MatContainer ℚ :=
  { essais := some { Y := some [⟨['x'], [5, 6]⟩], attrs := [] },
    flat := [("i1", [1]), ("i2", [1]), ("i3", [1]), ("v1", [1]), ("v2", [1]),
             ("v3", [1]), ("vn", [1]), ("w_m", [1]), ("vibrad", [1])] }

/-- C4 counterexample: on `demoContainer` the structured attempt recovers
exactly one channel (fewer than 9) and every required name exists in the
flat layout, yet conversion fails with 8 missing channels — the flat
layout was not attempted. -/
theorem c4_counterexample :
    (structuredSignals demoContainer).length = 1 ∧
    (∀ n ∈ REQUIRED_SIGNALS, (demoContainer.flat.lookup n).isSome = true) ∧
    convertStack demoContainer =
      .error (.missing ["i2", "i3", "v1", "v2", "v3", "vn", "w_m", "vibrad"]) := by
  decide

/-- Witness for C4 (amended) at the concrete container `demoContainer`,
whose structured phase is nonempty. -/
theorem c4_flat_layout_only_from_empty_witness :
    structuredSignals demoContainer ≠ [] ∧
    extractSignals demoContainer = structuredSignals demoContainer :=
  ⟨by decide, (c4_flat_layout_only_from_empty demoContainer).2 (by decide)⟩

/-- C7: conversion fails with the missing-channel error if and only if at
least one of the 9 required names is absent after the layout attempts, and
the error then carries exactly the list of missing names. -/
theorem c7_missing_channels (c : MatContainer ℚ) :
    (convertStack c = .error (.missing (missingSignals (extractSignals c))) ↔
      missingSignals (extractSignals c) ≠ []) ∧
    (∀ l, convertStack c = .error (.missing l) →
      l = missingSignals (extractSignals c)) := by
  unfold convertStack validateChannels
  by_cases h : missingSignals (extractSignals c) ≠ []
  · rw [if_pos h]
    refine ⟨⟨fun _ => h, fun _ => rfl⟩, ?_⟩
    intro l hl
    simp only [Except.error.injEq, ConvError.missing.injEq] at hl
    exact hl.symm
  · rw [if_neg h]
    have he := not_ne_iff.mp h
    cases hf : (extractSignals c).find? (fun p => p.2.length != 50001) with
    | some p => simp [hf, he]
    | none => simp [hf, he]

/-- Witness for C7 at the concrete container `demoContainer`, which has
eight missing channels. -/
theorem c7_missing_channels_witness :
    missingSignals (extractSignals demoContainer) ≠ [] ∧
    convertStack demoContainer =
      .error (.missing (missingSignals (extractSignals demoContainer))) :=
  ⟨by decide, (c7_missing_channels demoContainer).1.mpr (by decide)⟩

/-- C8: on a channel list containing all 9 required names, validation
fails with the length error precisely when some channel's length differs
from 50001. -/
theorem c8_length_check (s : List (String × List ℚ))
    (hall : missingSignals s = []) :
    (∃ n l, validateChannels s = .error (.badLength n l)) ↔
      ∃ p ∈ s, p.2.length ≠ 50001 := by
  unfold validateChannels
  rw [hall]
  rw [if_neg (by simp)]
  cases hf : s.find? (fun p => p.2.length != 50001) with
  | some p =>
    simp only [hf]
    constructor
    · intro _
      have hp := List.find?_some hf
      have hm := List.mem_of_find?_eq_some hf
      exact ⟨p, hm, by simpa using hp⟩
    · intro _
      exact ⟨p.1, p.2.length, rfl⟩
  | none =>
    simp only [hf]
    constructor
    · rintro ⟨n, l, hl⟩
      exact absurd hl (by simp)
    · rintro ⟨p, hp, hlen⟩
      have hn := List.find?_eq_none.mp hf p hp
      simp only [bne_iff_ne, ne_eq, not_not] at hn
      exact absurd hn hlen

/-- A channel list with all 9 required names but one-sample channels. -/
def shortChannels : List (String × List ℚ) :=
  [("i1", [0]), ("i2", [0]), ("i3", [0]), ("v1", [0]), ("v2", [0]),
   ("v3", [0]), ("vn", [0]), ("w_m", [0]), ("vibrad", [0])]

/-- Witness for C8 at `shortChannels`: all names present, a length of 1
triggers the length error. -/
theorem c8_length_check_witness :
    missingSignals shortChannels = [] ∧
    (∃ n l, validateChannels shortChannels = .error (.badLength n l)) :=
  ⟨by decide, (c8_length_check shortChannels (by decide)).mpr
    ⟨("i1", [0]), by decide, by decide⟩⟩

/-- Real embedding of `np.mean` over a 1-D array (empty list: 0). -/
noncomputable def meanR (xs : List ℝ) : ℝ := xs.sum / xs.length

/-- Real embedding of the square of `np.std`: the population variance. -/
noncomputable def varR (xs : List ℝ) : ℝ :=
  meanR (xs.map (fun x => (x - meanR xs)^2))

/-- Real embedding of `np.std`: the population standard deviation. -/
noncomputable def stdR (xs : List ℝ) : ℝ := Real.sqrt (varR xs)

/-- The numerical floor added to the standard deviation by the
normalization (`utils.py` line 96): `1e-8`. -/
noncomputable def npzEps : ℝ := 1/100000000

/-- The per-channel normalization of `convert_mat_to_npz` (`utils.py`
lines 95-96): `(x - mean) / (std + 1e-8)` along the time axis. -/
noncomputable def normalizeChannel (xs : List ℝ) : List ℝ :=
  xs.map (fun x => (x - meanR xs) / (stdR xs + npzEps))

/-- The final step of `convert_mat_to_npz` (`utils.py` lines 90-99):
validation and stacking followed by the per-channel normalization. -/
noncomputable def assembleNorm (s : List (String × List ℝ)) :
    Except ConvError (List (List ℝ)) :=
  (validateChannels s).map (fun rows => rows.map normalizeChannel)

/-- `convert_mat_to_npz` in full, from loaded container to normalized
rows. -/
noncomputable def convert_mat_to_npz (c : MatContainer ℝ) :
    Except ConvError (List (List ℝ)) :=
  assembleNorm (extractSignals c)

theorem sum_map_center_mul (xs : List ℝ) (m c : ℝ) :
    (xs.map (fun x => (x - m) * c)).sum = (xs.sum - xs.length * m) * c := by
  induction xs with
  | nil => simp
  | cons a l ih =>
    simp only [List.map_cons, List.sum_cons, ih, List.length_cons]
    push_cast
    ring

theorem sum_map_sq_center_mul (xs : List ℝ) (m c : ℝ) :
    (xs.map (fun x => ((x - m) * c)^2)).sum =
      (xs.map (fun x => (x - m)^2)).sum * c^2 := by
  induction xs with
  | nil => simp
  | cons a l ih =>
    simp only [List.map_cons, List.sum_cons, ih]
    ring

theorem mean_map_center_mul (xs : List ℝ) (c : ℝ) (h : xs ≠ []) :
    meanR (xs.map (fun x => (x - meanR xs) * c)) = 0 := by
  have hn : (xs.length : ℝ) ≠ 0 :=
    Nat.cast_ne_zero.mpr (fun hc => h (List.length_eq_zero.mp hc))
  simp only [meanR, List.length_map, sum_map_center_mul]
  field_simp

theorem var_map_center_mul (xs : List ℝ) (c : ℝ) (h : xs ≠ []) :
    varR (xs.map (fun x => (x - meanR xs) * c)) = varR xs * c^2 := by
  unfold varR
  rw [mean_map_center_mul xs c h]
  simp only [sub_zero, List.map_map, Function.comp_def]
  simp only [meanR, List.length_map, sum_map_sq_center_mul]
  ring

theorem varR_nonneg (xs : List ℝ) : 0 ≤ varR xs := by
  unfold varR meanR
  apply div_nonneg
  · apply List.sum_nonneg
    intro x hx
    rw [List.mem_map] at hx
    obtain ⟨y, _, rfl⟩ := hx
    positivity
  · positivity

theorem std_map_center_mul (xs : List ℝ) (c : ℝ) (h : xs ≠ []) (hc : 0 ≤ c) :
    stdR (xs.map (fun x => (x - meanR xs) * c)) = stdR xs * c := by
  unfold stdR
  rw [var_map_center_mul xs c h, Real.sqrt_mul (varR_nonneg xs), Real.sqrt_sq hc]

theorem std_den_pos (xs : List ℝ) : 0 < stdR xs + npzEps := by
  have h1 : 0 ≤ stdR xs := Real.sqrt_nonneg _
  have h2 : (0:ℝ) < npzEps := by
    unfold npzEps
    norm_num
  linarith

theorem normalize_eq_center_mul (xs : List ℝ) :
    normalizeChannel xs =
      xs.map (fun x => (x - meanR xs) * (stdR xs + npzEps)⁻¹) := by
  unfold normalizeChannel
  simp only [div_eq_mul_inv]

theorem mean_normalize (xs : List ℝ) (h : xs ≠ []) :
    meanR (normalizeChannel xs) = 0 := by
  rw [normalize_eq_center_mul]
  exact mean_map_center_mul xs _ h

theorem std_normalize (xs : List ℝ) (h : xs ≠ []) :
    stdR (normalizeChannel xs) = stdR xs * (stdR xs + npzEps)⁻¹ := by
  rw [normalize_eq_center_mul]
  exact std_map_center_mul xs _ h (inv_nonneg.mpr (le_of_lt (std_den_pos xs)))

theorem std_normalize_close (xs : List ℝ) (h : xs ≠ [])
    (hs : 1/100 ≤ stdR xs) :
    |stdR (normalizeChannel xs) - 1| ≤ 1/1000000 := by
  rw [std_normalize xs h]
  have hd : 0 < stdR xs + npzEps := std_den_pos xs
  have h1 : stdR xs * (stdR xs + npzEps)⁻¹ = 1 - npzEps / (stdR xs + npzEps) := by
    field_simp
  rw [h1]
  have h2 : (0:ℝ) < npzEps := by
    unfold npzEps
    norm_num
  have h3 : npzEps / (stdR xs + npzEps) ≤ 1/1000000 := by
    rw [div_le_iff₀ hd]
    unfold npzEps
    unfold npzEps at hd
    nlinarith [hs]
  have h4 : 0 ≤ npzEps / (stdR xs + npzEps) := le_of_lt (div_pos h2 hd)
  have h5 : 1 - npzEps / (stdR xs + npzEps) - 1 = -(npzEps / (stdR xs + npzEps)) := by
    ring
  rw [h5, abs_neg, abs_of_nonneg h4]
  exact h3

theorem lookup_mem {α β : Type} [DecidableEq α] (l : List (α × β)) (a : α)
    (b : β) (h : l.lookup a = some b) : (a, b) ∈ l := by
  induction l with
  | nil => simp [List.lookup] at h
  | cons p l ih =>
    rw [List.lookup_cons] at h
    cases he : a == p.1 with
    | true =>
      rw [he] at h
      have ha : a = p.1 := by simpa using he
      have h2 : some p.2 = some b := h
      have hb : b = p.2 := by
        injection h2 with h3
        exact h3.symm
      rw [ha, hb]
      exact List.mem_cons_self _ _
    | false =>
      rw [he] at h
      exact List.mem_cons_of_mem _ (ih h)

theorem validateChannels_ok {α : Type} (s : List (String × List α))
    (hall : missingSignals s = []) (hlen : ∀ p ∈ s, p.2.length = 50001) :
    validateChannels s =
      .ok (REQUIRED_SIGNALS.filterMap (fun n => s.lookup n)) := by
  unfold validateChannels
  rw [hall, if_neg (by simp)]
  have hf : s.find? (fun p => p.2.length != 50001) = none := by
    rw [List.find?_eq_none]
    intro p hp
    simp [hlen p hp]
  rw [hf]

/-- C6 (amended): for a ChannelSet containing all 9 required channels,
each of length 50001 and each with standard deviation at least 0.01,
assembly succeeds, each channel is normalized as
`(x - mean) / (std + 1e-8)`, and every normalized row has length 50001,
mean exactly 0, and standard deviation within 1e-6 of 1.  (Without the
standard-deviation floor the claim fails — see the counterexample with a
constant channel, whose normalized standard deviation is 0.) -/
theorem c6_normalized_rows (s : List (String × List ℝ))
    (hall : missingSignals s = [])
    (hlen : ∀ p ∈ s, p.2.length = 50001)
    (hstd : ∀ p ∈ s, 1/100 ≤ stdR p.2) :
    assembleNorm s =
      .ok ((REQUIRED_SIGNALS.filterMap (fun n => s.lookup n)).map normalizeChannel) ∧
    ∀ r ∈ (REQUIRED_SIGNALS.filterMap (fun n => s.lookup n)).map normalizeChannel,
      r.length = 50001 ∧ meanR r = 0 ∧ |stdR r - 1| ≤ 1/1000000 := by
  constructor
  · unfold assembleNorm
    rw [validateChannels_ok s hall hlen]
    rfl
  · intro r hr
    rw [List.mem_map] at hr
    obtain ⟨row, hrow, rfl⟩ := hr
    rw [List.mem_filterMap] at hrow
    obtain ⟨n, _, hl⟩ := hrow
    have hmem : (n, row) ∈ s := lookup_mem s n row hl
    have hrl : row.length = 50001 := hlen _ hmem
    have hne : row ≠ [] := by
      intro hc
      rw [hc] at hrl
      simp at hrl
    constructor
    · unfold normalizeChannel
      rw [List.length_map]
      exact hrl
    constructor
    · exact mean_normalize row hne
    · exact std_normalize_close row hne (hstd (n, row) hmem)

theorem meanR_replicate_zero (n : ℕ) : meanR (List.replicate n (0:ℝ)) = 0 := by
  simp [meanR, List.sum_replicate]

theorem varR_replicate_zero (n : ℕ) : varR (List.replicate n (0:ℝ)) = 0 := by
  simp [varR, meanR_replicate_zero, List.map_replicate, meanR, List.sum_replicate]

theorem stdR_replicate_zero (n : ℕ) : stdR (List.replicate n (0:ℝ)) = 0 := by
  simp [stdR, varR_replicate_zero]

theorem normalize_replicate_zero (n : ℕ) :
    normalizeChannel (List.replicate n (0:ℝ)) = List.replicate n 0 := by
  unfold normalizeChannel
  rw [meanR_replicate_zero, stdR_replicate_zero]
  simp [List.map_replicate]

theorem map_fst_graph {β : Type} (f : String → β) :
    (REQUIRED_SIGNALS.map (fun n => (n, f n))).map Prod.fst = REQUIRED_SIGNALS := by
  rw [List.map_map]
  exact (List.map_congr_left (fun a _ => rfl)).trans (List.map_id _)

/-- A constant (all-zero) channel of the required length. -/
noncomputable def zeroChan : List ℝ := List.replicate 50001 0

/-- A ChannelSet whose nine channels are all constant. -/
noncomputable def zeroChannels : List (String × List ℝ) :=
  REQUIRED_SIGNALS.map (fun n => (n, zeroChan))

/-- C6 counterexample: a ChannelSet of constant channels satisfies the
shape invariant, assembly succeeds, yet a normalized row has standard
deviation 0 — not within 1e-6 of 1.  The claim as stated (for every
ChannelSet with the shape invariant) is therefore false. -/
theorem c6_counterexample :
    missingSignals zeroChannels = [] ∧
    (∀ p ∈ zeroChannels, p.2.length = 50001) ∧
    (∃ rows, assembleNorm zeroChannels = .ok rows ∧
      ∃ r ∈ rows, meanR r = 0 ∧ stdR r = 0 ∧ ¬ (|stdR r - 1| ≤ 1/1000000)) := by
  have hall : missingSignals zeroChannels = [] := by
    have hm : zeroChannels.map Prod.fst = REQUIRED_SIGNALS :=
      map_fst_graph (fun _ => zeroChan)
    unfold missingSignals
    rw [hm]
    decide
  have hlen : ∀ p ∈ zeroChannels, p.2.length = 50001 := by
    intro p hp
    simp only [zeroChannels, List.mem_map] at hp
    obtain ⟨n, _, rfl⟩ := hp
    simp only [zeroChan, List.length_replicate]
  refine ⟨hall, hlen, ?_⟩
  refine ⟨(REQUIRED_SIGNALS.filterMap
    (fun n => zeroChannels.lookup n)).map normalizeChannel, ?_, ?_⟩
  · unfold assembleNorm
    rw [validateChannels_ok zeroChannels hall hlen]
    rfl
  · refine ⟨normalizeChannel zeroChan, ?_, ?_, ?_, ?_⟩
    · rw [List.mem_map]
      refine ⟨zeroChan, ?_, rfl⟩
      rw [List.mem_filterMap]
      refine ⟨"i1", by decide, ?_⟩
      unfold zeroChannels
      exact List.lookup_graph (fun _ => zeroChan) (by decide)
    · show meanR (normalizeChannel (List.replicate 50001 0)) = 0
      rw [normalize_replicate_zero, meanR_replicate_zero]
    · show stdR (normalizeChannel (List.replicate 50001 0)) = 0
      rw [normalize_replicate_zero, stdR_replicate_zero]
    · show ¬ (|stdR (normalizeChannel (List.replicate 50001 0)) - 1| ≤ 1/1000000)
      rw [normalize_replicate_zero, stdR_replicate_zero]
      norm_num

/-- A length-50001 channel with 25000 samples at 1 and 25001 at -1: its
standard deviation is about 1. -/
noncomputable def chanPM : List ℝ :=
  List.replicate 25000 1 ++ List.replicate 25001 (-1)

/-- A complete ChannelSet whose channels are all `chanPM`. -/
noncomputable def fullChannels : List (String × List ℝ) :=
  REQUIRED_SIGNALS.map (fun n => (n, chanPM))

theorem chanPM_mean : meanR chanPM = -(1/50001) := by
  unfold meanR chanPM
  rw [List.sum_append, List.length_append]
  simp only [List.sum_replicate, List.length_replicate, nsmul_eq_mul]
  push_cast
  norm_num

theorem chanPM_var : 1/10000 ≤ varR chanPM := by
  unfold varR
  rw [chanPM_mean]
  show (1:ℝ)/10000 ≤ meanR ((List.replicate 25000 (1:ℝ) ++
    List.replicate 25001 (-1)).map (fun x => (x - -(1/50001))^2))
  rw [List.map_append, List.map_replicate, List.map_replicate]
  unfold meanR
  rw [List.sum_append, List.length_append]
  simp only [List.sum_replicate, List.length_replicate, nsmul_eq_mul]
  push_cast
  rw [le_div_iff₀ (by norm_num : (0:ℝ) < 50001)]
  norm_num

theorem chanPM_std : 1/100 ≤ stdR chanPM := by
  unfold stdR
  rw [Real.le_sqrt' (by norm_num : (0:ℝ) < 1/100)]
  calc ((1:ℝ)/100)^2 = 1/10000 := by norm_num
  _ ≤ varR chanPM := chanPM_var

/-- Witness for C6 (amended) on the complete ChannelSet `fullChannels`. -/
theorem c6_normalized_rows_witness :
    missingSignals fullChannels = [] ∧
    (∀ p ∈ fullChannels, p.2.length = 50001) ∧
    (∀ p ∈ fullChannels, 1/100 ≤ stdR p.2) ∧
    (assembleNorm fullChannels =
      .ok ((REQUIRED_SIGNALS.filterMap
        (fun n => fullChannels.lookup n)).map normalizeChannel) ∧
    ∀ r ∈ (REQUIRED_SIGNALS.filterMap
        (fun n => fullChannels.lookup n)).map normalizeChannel,
      r.length = 50001 ∧ meanR r = 0 ∧ |stdR r - 1| ≤ 1/1000000) := by
  have hall : missingSignals fullChannels = [] := by
    have hm : fullChannels.map Prod.fst = REQUIRED_SIGNALS :=
      map_fst_graph (fun _ => chanPM)
    unfold missingSignals
    rw [hm]
    decide
  have hlen : ∀ p ∈ fullChannels, p.2.length = 50001 := by
    intro p hp
    simp only [fullChannels, List.mem_map] at hp
    obtain ⟨n, _, rfl⟩ := hp
    simp only [chanPM, List.length_append, List.length_replicate]
  have hstd : ∀ p ∈ fullChannels, 1/100 ≤ stdR p.2 := by
    intro p hp
    simp only [fullChannels, List.mem_map] at hp
    obtain ⟨n, _, rfl⟩ := hp
    exact chanPM_std
  exact ⟨hall, hlen, hstd, c6_normalized_rows fullChannels hall hlen hstd⟩

/-- The phase-balance test of `validate_signal_characteristics`
(`predictClass.py` line 48):
`np.std([np.std(i1), np.std(i2), np.std(i3)]) < 0.2`. -/
noncomputable def phase_balance (i1 i2 i3 : List ℝ) : Prop :=
  stdR [stdR i1, stdR i2, stdR i3] < 1/5

theorem meanR_three (x y z : ℝ) : meanR [x, y, z] = (x + y + z)/3 := by
  simp [meanR]
  ring

theorem varR_three (x y z : ℝ) :
    varR [x, y, z] = ((x - (x + y + z)/3)^2 + (y - (x + y + z)/3)^2 +
      (z - (x + y + z)/3)^2)/3 := by
  unfold varR
  rw [meanR_three]
  simp [meanR]
  ring

theorem var_three_range (x y z a b : ℝ) (hxa : a ≤ x) (hxb : x ≤ b)
    (hya : a ≤ y) (hyb : y ≤ b) (hza : a ≤ z) (hzb : z ≤ b) :
    varR [x, y, z] ≤ (b - a)^2 := by
  rw [varR_three]
  have hd1 : (0:ℝ) ≤ b - a - (x - (x + y + z)/3) := by linarith
  have hd2 : (0:ℝ) ≤ b - a + (x - (x + y + z)/3) := by linarith
  have hd3 : (0:ℝ) ≤ b - a - (y - (x + y + z)/3) := by linarith
  have hd4 : (0:ℝ) ≤ b - a + (y - (x + y + z)/3) := by linarith
  have hd5 : (0:ℝ) ≤ b - a - (z - (x + y + z)/3) := by linarith
  have hd6 : (0:ℝ) ≤ b - a + (z - (x + y + z)/3) := by linarith
  nlinarith [mul_nonneg hd1 hd2, mul_nonneg hd3 hd4, mul_nonneg hd5 hd6]

theorem std_three_range (x y z a b : ℝ) (hxa : a ≤ x) (hxb : x ≤ b)
    (hya : a ≤ y) (hyb : y ≤ b) (hza : a ≤ z) (hzb : z ≤ b) :
    stdR [x, y, z] ≤ b - a := by
  unfold stdR
  have h := var_three_range x y z a b hxa hxb hya hyb hza hzb
  calc Real.sqrt (varR [x, y, z]) ≤ Real.sqrt ((b - a)^2) :=
    Real.sqrt_le_sqrt h
  _ = |b - a| := Real.sqrt_sq_eq_abs _
  _ = b - a := abs_of_nonneg (by linarith)

/-- C10 (amended): whenever the three current channels each have standard
deviation at least 0.01 before normalization, the per-channel
normalization forces their standard deviations within 1e-6 of 1, the
`phase_balance` flag is true, and the agreement test for a predicted
`desiquilibre` label then reduces to the `mod_25hz` flag alone.  (Without
the standard-deviation floor the claim fails: a constant current channel
has normalized standard deviation 0 — see the counterexample.) -/
theorem c10_phase_balance_after_norm (i1 i2 i3 : List ℝ)
    (h1 : i1 ≠ []) (h2 : i2 ≠ []) (h3 : i3 ≠ [])
    (hs1 : 1/100 ≤ stdR i1) (hs2 : 1/100 ≤ stdR i2) (hs3 : 1/100 ≤ stdR i3) :
    phase_balance (normalizeChannel i1) (normalizeChannel i2)
      (normalizeChannel i3) ∧
    (∀ p : Patterns, p.phase_balance = true →
      validFor .desiquilibre p = p.mod_25hz) := by
  constructor
  · unfold phase_balance
    have hb1 := abs_le.mp (std_normalize_close i1 h1 hs1)
    have hb2 := abs_le.mp (std_normalize_close i2 h2 hs2)
    have hb3 := abs_le.mp (std_normalize_close i3 h3 hs3)
    have hr := std_three_range (stdR (normalizeChannel i1))
      (stdR (normalizeChannel i2)) (stdR (normalizeChannel i3))
      (1 - 1/1000000) (1 + 1/1000000)
      (by linarith [hb1.1]) (by linarith [hb1.2])
      (by linarith [hb2.1]) (by linarith [hb2.2])
      (by linarith [hb3.1]) (by linarith [hb3.2])
    have hnum : (1:ℝ) + 1/1000000 - (1 - 1/1000000) < 1/5 := by norm_num
    linarith
  · intro p hp
    show (p.mod_25hz && p.phase_balance) = p.mod_25hz
    rw [hp, Bool.and_true]

/-- Witness for C10 (amended) on three copies of the two-point channel
`[0, 2]`, whose standard deviation is 1. -/
theorem c10_phase_balance_after_norm_witness :
    (([0, 2] : List ℝ) ≠ [] ∧ 1/100 ≤ stdR [0, 2]) ∧
    (phase_balance (normalizeChannel [0, 2]) (normalizeChannel [0, 2])
      (normalizeChannel [0, 2]) ∧
    (∀ p : Patterns, p.phase_balance = true →
      validFor .desiquilibre p = p.mod_25hz)) := by
  have hne : ([0, 2] : List ℝ) ≠ [] := by simp
  have hvar : varR [(0:ℝ), 2] = 1 := by
    unfold varR
    have hm : meanR [(0:ℝ), 2] = 1 := by
      norm_num [meanR]
    rw [hm]
    norm_num [meanR]
  have hstd : 1/100 ≤ stdR [(0:ℝ), 2] := by
    unfold stdR
    rw [hvar, Real.sqrt_one]
    norm_num
  exact ⟨⟨hne, hstd⟩,
    c10_phase_balance_after_norm [0, 2] [0, 2] [0, 2] hne hne hne hstd hstd hstd⟩

/-- A complete ChannelSet whose `i1` channel is constant while the other
channels have standard deviation about 1. -/
noncomputable def mixChannels : List (String × List ℝ) :=
  [("i1", zeroChan), ("i2", chanPM), ("i3", chanPM), ("v1", chanPM),
   ("v2", chanPM), ("v3", chanPM), ("vn", chanPM), ("w_m", chanPM),
   ("vibrad", chanPM)]

theorem stdR_nonneg (xs : List ℝ) : 0 ≤ stdR xs := Real.sqrt_nonneg _

theorem le_stdR_of_sq_le_varR (a : ℝ) (xs : List ℝ) (ha : 0 < a)
    (h : a^2 ≤ varR xs) : a ≤ stdR xs := by
  unfold stdR
  rw [Real.le_sqrt' ha]
  exact h

theorem chanPM_ne_nil : chanPM ≠ [] := by
  intro hc
  have hl : chanPM.length = 50001 := by
    simp only [chanPM, List.length_append, List.length_replicate]
  rw [hc] at hl
  simp at hl

/-- C10 counterexample: on `mixChannels` (shape invariant satisfied, `i1`
constant) assembly succeeds, but the `phase_balance` flag computed from the
normalized current channels is FALSE: the normalized `i1` has standard
deviation 0 while `i2`, `i3` have standard deviation about 1, so the spread
of the three standard deviations exceeds 0.2. -/
theorem c10_counterexample :
    missingSignals mixChannels = [] ∧
    (∀ p ∈ mixChannels, p.2.length = 50001) ∧
    assembleNorm mixChannels = .ok
      [normalizeChannel zeroChan, normalizeChannel chanPM,
       normalizeChannel chanPM, normalizeChannel chanPM,
       normalizeChannel chanPM, normalizeChannel chanPM,
       normalizeChannel chanPM, normalizeChannel chanPM,
       normalizeChannel chanPM] ∧
    ¬ phase_balance (normalizeChannel zeroChan) (normalizeChannel chanPM)
      (normalizeChannel chanPM) := by
  have hall : missingSignals mixChannels = [] := by
    have hm : mixChannels.map Prod.fst = REQUIRED_SIGNALS := rfl
    unfold missingSignals
    rw [hm]
    decide
  have hlzero : zeroChan.length = 50001 := by
    simp only [zeroChan, List.length_replicate]
  have hlpm : chanPM.length = 50001 := by
    simp only [chanPM, List.length_append, List.length_replicate]
  have hlen : ∀ p ∈ mixChannels, p.2.length = 50001 := by
    intro p hp
    simp only [mixChannels, List.mem_cons, List.not_mem_nil, or_false] at hp
    rcases hp with rfl | rfl | rfl | rfl | rfl | rfl | rfl | rfl | rfl <;>
      simp only [zeroChan, chanPM, List.length_append, List.length_replicate]
  refine ⟨hall, hlen, ?_, ?_⟩
  · unfold assembleNorm
    rw [validateChannels_ok mixChannels hall hlen]
    have hfm : REQUIRED_SIGNALS.filterMap (fun n => mixChannels.lookup n) =
        [zeroChan, chanPM, chanPM, chanPM, chanPM, chanPM, chanPM, chanPM,
         chanPM] := by
      simp [REQUIRED_SIGNALS, mixChannels, List.filterMap, List.lookup]
    rw [hfm]
    rfl
  · have hz : stdR (normalizeChannel zeroChan) = 0 := by
      show stdR (normalizeChannel (List.replicate 50001 0)) = 0
      rw [normalize_replicate_zero, stdR_replicate_zero]
    have habs := abs_le.mp (std_normalize_close chanPM chanPM_ne_nil chanPM_std)
    have hc0 := stdR_nonneg (normalizeChannel chanPM)
    unfold phase_balance
    rw [hz, not_lt]
    generalize hgen : stdR (normalizeChannel chanPM) = c at habs hc0 ⊢
    clear hz hgen
    have hcge : 1 - 1/1000000 ≤ c := by linarith [habs.1]
    apply le_stdR_of_sq_le_varR _ _ (by norm_num)
    rw [varR_three]
    clear habs hall hlen hlzero hlpm
    nlinarith [hcge, hc0]

/-- Python's `str.split('/')` on a character list: split at every slash,
keeping empty segments (so the result is never empty). -/
def splitOnSlash : List Char → List (List Char)
  | [] => [[]]
  | ch :: rest =>
    match splitOnSlash rest with
    | [] => [[]]
    | seg :: segs => if ch = '/' then [] :: seg :: segs else (ch :: seg) :: segs

/-- The (ASCII) whitespace characters removed by Python's `str.strip()`. -/
def isPySpace (ch : Char) : Bool :=
  ch = ' ' || ch = '\t' || ch = '\n' || ch = '\x0b' || ch = '\x0c' || ch = '\r'

/-- Python's `str.strip()`: remove leading and trailing whitespace. -/
def pyStrip (s : List Char) : List Char :=
  ((s.dropWhile isPySpace).reverse.dropWhile isPySpace).reverse

/-- The name extraction of `extract_signals_from_mat`
(`predictClass.py` line 248):
`str(signal_entry.Name).split('/')[-1].strip()` — the LAST slash-delimited
segment, with surrounding whitespace (not quotes) stripped. -/
def extractName (s : List Char) : List Char :=
  pyStrip ((splitOnSlash s).getLastD [])

/-- Follows the spec's words: the channel's logical name is the
second-to-last slash-delimited path segment, with surrounding quote
characters stripped. -/
def extractNameSpec (s : List Char) : List Char :=
  let parts := splitOnSlash s
  (((parts.getD (parts.length - 2) []).dropWhile (fun ch => ch = '"')).reverse.dropWhile
    (fun ch => ch = '"')).reverse

/-- The 9 required names as character lists. -/
def expectedNamesC : List (List Char) := REQUIRED_SIGNALS.map String.data

/-- The record filter of the structured-record branch of
`extract_signals_from_mat` (`predictClass.py` lines 246-255): a record is
kept exactly when its extracted name is one of the 9 required names, and
then contributes the pair (name, data). -/
def parseRecords {α : Type} (records : List (SignalEntry α)) :
    List (List Char × List α) :=
  records.filterMap (fun r =>
    if extractName r.Name ∈ expectedNamesC
    then some (extractName r.Name, r.Data)
    else none)

/-- C2 (amended): the parser extracts a record's channel name as the LAST
slash-delimited segment of the `Name` field with surrounding whitespace
stripped (not the second-to-last segment with quotes stripped), and a pair
(n, d) is produced exactly when some record extracts to the required name
n with data d; records whose extracted name is not one of the 9 required
names are discarded. -/
theorem c2_record_name_extraction {α : Type} (records : List (SignalEntry α))
    (n : List Char) (d : List α) :
    (n, d) ∈ parseRecords records ↔
      n ∈ expectedNamesC ∧
        ∃ r ∈ records, extractName r.Name = n ∧ r.Data = d := by
  unfold parseRecords
  rw [List.mem_filterMap]
  constructor
  · rintro ⟨r, hr, hsome⟩
    by_cases hn : extractName r.Name ∈ expectedNamesC
    · rw [if_pos hn] at hsome
      injection hsome with h1
      have h2 : extractName r.Name = n := congrArg Prod.fst h1
      have h3 : r.Data = d := congrArg Prod.snd h1
      exact ⟨h2 ▸ hn, r, hr, h2, h3⟩
    · rw [if_neg hn] at hsome
      exact absurd hsome (by simp)
  · rintro ⟨hn, r, hr, he, hd⟩
    refine ⟨r, hr, ?_⟩
    rw [he, hd, if_pos hn]

/-- C2 counterexample: on the exact `Name` path written by the repository's
own serializers (`saveMat.py` line 73), the code extracts the quoted last
segment `"Out1"`, not the spec's `i1`; the record is therefore discarded
even though the spec's extraction yields a required name. -/
theorem c2_counterexample :
    extractName ("\"Model Root\"/\"i1\"/\"Out1\"").data ≠
      extractNameSpec ("\"Model Root\"/\"i1\"/\"Out1\"").data ∧
    extractNameSpec ("\"Model Root\"/\"i1\"/\"Out1\"").data = "i1".data ∧
    extractName ("\"Model Root\"/\"i1\"/\"Out1\"").data ∉ expectedNamesC ∧
    parseRecords [(⟨("\"Model Root\"/\"i1\"/\"Out1\"").data, [(1:ℚ)]⟩ :
      SignalEntry ℚ)] = [] := by
  decide

/-- The sample count of `SignalGenerator` (`machine.py` line 8):
`sample_rate = 50001`, over a `duration = 1.0` second window. -/
def sample_rate : ℕ := 50001

/-- `np.linspace(0, duration, n)`: n equally spaced points from 0 to
`duration` inclusive (`machine.py` line 11). -/
noncomputable def linspaceT (duration : ℝ) (n : ℕ) : List ℝ :=
  (List.range n).map (fun (i : ℕ) => duration * (i : ℝ) / ((n : ℝ) - 1))

/-- The generator's time vector `self.t` (`machine.py` line 11). -/
noncomputable def tVec : List ℝ := linspaceT 1 sample_rate

/-- The fault types injected by `SignalGenerator`; `none` stands for the
healthy state (`fault_type=None`). -/
inductive FaultType
  | cassure
  | desiquilibre
deriving DecidableEq

/-- `SignalGenerator.generate_current_signal` (`machine.py` lines 19-42):
a 50 Hz sinusoid with fault-specific components, plus scaled noise
(`np.random.randn` is an input). -/
noncomputable def generate_current_signal (amplitude noise_level : ℝ)
    (fault : Option FaultType) (noise : List ℝ) : List ℝ :=
  let base := tVec.map (fun t =>
    let b := amplitude * Real.sin (2 * Real.pi * 50 * t)
    match fault with
    | some .cassure =>
      b + 4/10 * Real.sin (2 * Real.pi * (50 + 100) * t)
        + 4/10 * Real.sin (2 * Real.pi * (50 - 100) * t)
    | some .desiquilibre =>
      b * (1 + 6/10 * Real.sin (2 * Real.pi * 25 * t))
        + 2/10 * Real.sin (2 * Real.pi * (2 * 25) * t)
        + 1/10 * Real.sin (2 * Real.pi * (3 * 25) * t)
    | none => b)
  List.zipWith (fun x z => x + noise_level * z) base noise

/-- `SignalGenerator.generate_voltage_signal` (`machine.py` lines 44-48). -/
noncomputable def generate_voltage_signal (amplitude noise_level : ℝ)
    (noise : List ℝ) : List ℝ :=
  List.zipWith (fun x z => x + noise_level * z)
    (tVec.map (fun t => amplitude * Real.sin (2 * Real.pi * 50 * t))) noise

/-- `SignalGenerator.generate_speed_signal` (`machine.py` lines 50-67). -/
noncomputable def generate_speed_signal (nominal_speed noise_level : ℝ)
    (fault : Option FaultType) (noise : List ℝ) : List ℝ :=
  let base := tVec.map (fun t =>
    match fault with
    | some .desiquilibre =>
      nominal_speed + 150 * Real.sin (2 * Real.pi * 25 * t)
        + 50 * Real.sin (2 * Real.pi * (2 * 25) * t)
    | some .cassure =>
      nominal_speed + 20 * Real.sin (2 * Real.pi * (50 * 2) * t)
    | none => nominal_speed)
  List.zipWith (fun x z => x + noise_level * z) base noise

/-- `SignalGenerator.generate_vibration_signal` (`machine.py` lines 69-88). -/
noncomputable def generate_vibration_signal (amplitude noise_level : ℝ)
    (fault : Option FaultType) (noise : List ℝ) : List ℝ :=
  let base := tVec.map (fun t =>
    let b := amplitude * Real.sin (2 * Real.pi * 50 * t)
    match fault with
    | some .cassure =>
      b + 7/10 * Real.sin (2 * Real.pi * (50 * 2) * t)
        + 3/10 * Real.sin (2 * Real.pi * ((50 * 2) * (3/2)) * t)
    | some .desiquilibre =>
      b + 12/10 * amplitude * Real.sin (2 * Real.pi * 25 * t)
        + 4/10 * amplitude * Real.sin (2 * Real.pi * (25 * 2) * t)
        + 2/10 * amplitude * Real.sin (2 * Real.pi * (25 * 3) * t)
    | none => b)
  List.zipWith (fun x z => x + noise_level * z) base noise

theorem tVec_length : tVec.length = sample_rate := by
  unfold tVec linspaceT
  rw [List.length_map, List.length_range]

theorem generate_current_signal_length (a nl : ℝ) (fault : Option FaultType)
    (noise : List ℝ) (h : noise.length = sample_rate) :
    (generate_current_signal a nl fault noise).length = sample_rate := by
  unfold generate_current_signal
  rw [List.length_zipWith, List.length_map, tVec_length, h, min_self]

theorem generate_voltage_signal_length (a nl : ℝ) (noise : List ℝ)
    (h : noise.length = sample_rate) :
    (generate_voltage_signal a nl noise).length = sample_rate := by
  unfold generate_voltage_signal
  rw [List.length_zipWith, List.length_map, tVec_length, h, min_self]

theorem generate_speed_signal_length (a nl : ℝ) (fault : Option FaultType)
    (noise : List ℝ) (h : noise.length = sample_rate) :
    (generate_speed_signal a nl fault noise).length = sample_rate := by
  unfold generate_speed_signal
  rw [List.length_zipWith, List.length_map, tVec_length, h, min_self]

theorem generate_vibration_signal_length (a nl : ℝ) (fault : Option FaultType)
    (noise : List ℝ) (h : noise.length = sample_rate) :
    (generate_vibration_signal a nl fault noise).length = sample_rate := by
  unfold generate_vibration_signal
  rw [List.length_zipWith, List.length_map, tVec_length, h, min_self]

/-- One attempt of `SignalGenerator.generate_signals` (`machine.py` lines
135-171): the three phase currents, three phase voltages, neutral voltage,
speed and vibration, in this order, with the default amplitudes and noise
levels of the source.  The verification/retry loop re-runs exactly this
construction with fresh noise up to 3 times and returns the signals of the
last attempt run; every attempt has identical names and shapes, so a
single attempt is modelled, taking the 9 noise vectors as inputs. -/
noncomputable def generate_signals (fault : Option FaultType)
    (ns : Fin 9 → List ℝ) : List (String × List ℝ) :=
  [("i1", generate_current_signal 1 (5/100) fault (ns 0)),
   ("i2", generate_current_signal 1 (5/100) fault (ns 1)),
   ("i3", generate_current_signal 1 (5/100) fault (ns 2)),
   ("v1", generate_voltage_signal 220 (1/10) (ns 3)),
   ("v2", generate_voltage_signal 220 (1/10) (ns 4)),
   ("v3", generate_voltage_signal 220 (1/10) (ns 5)),
   ("vn", generate_voltage_signal (1/10) (1/10) (ns 6)),
   ("w_m", generate_speed_signal 1500 (5/100) fault (ns 7)),
   ("vibrad", generate_vibration_signal 1 (5/100) fault (ns 8))]

/-- The missing-signal computation of `save_signals`
(`machine.py` lines 190-193). -/
def saveMissing {α : Type} (signals : List (String × List α)) : List String :=
  REQUIRED_SIGNALS.filter (fun n => !(signals.map Prod.fst).contains n)

/-- The per-name channel walk of `save_signals` (`machine.py` lines
197-199): the required names in canonical order with their data. -/
def saveChannels {α : Type} (signals : List (String × List α)) :
    List (String × List α) :=
  REQUIRED_SIGNALS.map (fun n => (n, (signals.lookup n).getD []))

/-- `SignalGenerator.save_signals` (`machine.py` lines 173-231): verify the
required signals are all present, walk the required names in canonical
order checking each shape is `(50001,)` (first offender raises), build the
`Y` records with `Name` the bare signal name (line 214), and write the
container under the single top-level key `essais1` (line 231).  File
staging and the read-back debug print are omitted: the value is the
container that `scipy.io.savemat` serializes. -/
def save_signals {α : Type} (signals : List (String × List α)) :
    Except String (MatContainer α) :=
  if saveMissing signals ≠ [] then .error "Missing required signals"
  else
    match (saveChannels signals).find? (fun p => p.2.length != sample_rate) with
    | some _ => .error "wrong shape"
    | none =>
      .ok ⟨some ⟨some ((saveChannels signals).map (fun p => ⟨p.1.data, p.2⟩)),
        []⟩, []⟩

theorem extractSignals_Y9 {α : Type} (d1 d2 d3 d4 d5 d6 d7 d8 d9 : List α) :
    extractSignals (⟨some ⟨some
      [⟨"i1".data, d1⟩, ⟨"i2".data, d2⟩, ⟨"i3".data, d3⟩, ⟨"v1".data, d4⟩,
       ⟨"v2".data, d5⟩, ⟨"v3".data, d6⟩, ⟨"vn".data, d7⟩, ⟨"w_m".data, d8⟩,
       ⟨"vibrad".data, d9⟩], []⟩, []⟩ : MatContainer α) =
      [("i1", d1), ("i2", d2), ("i3", d3), ("v1", d4), ("v2", d5),
       ("v3", d6), ("vn", d7), ("w_m", d8), ("vibrad", d9)] := by
  simp only [extractSignals, structuredSignals, REQUIRED_SIGNALS,
    List.zipWith_cons_cons, List.zipWith_nil_right, List.isEmpty_cons,
    Bool.false_eq_true, if_false]

/-- Serialization and re-parsing for an arbitrary complete signal list in
canonical order: `save_signals` succeeds and the parsed container yields
the 9 required names with the same data. -/
theorem saveExtract9 (e1 e2 e3 e4 e5 e6 e7 e8 e9 : List ℝ)
    (l1 : e1.length = sample_rate) (l2 : e2.length = sample_rate)
    (l3 : e3.length = sample_rate) (l4 : e4.length = sample_rate)
    (l5 : e5.length = sample_rate) (l6 : e6.length = sample_rate)
    (l7 : e7.length = sample_rate) (l8 : e8.length = sample_rate)
    (l9 : e9.length = sample_rate) :
    ∃ cont, save_signals
        [("i1", e1), ("i2", e2), ("i3", e3), ("v1", e4), ("v2", e5),
         ("v3", e6), ("vn", e7), ("w_m", e8), ("vibrad", e9)] = .ok cont ∧
      (extractSignals cont).map Prod.fst = REQUIRED_SIGNALS ∧
      ∀ p ∈ extractSignals cont, p.2.length = 50001 := by
  have hch : saveChannels
      [("i1", e1), ("i2", e2), ("i3", e3), ("v1", e4), ("v2", e5),
       ("v3", e6), ("vn", e7), ("w_m", e8), ("vibrad", e9)] =
      [("i1", e1), ("i2", e2), ("i3", e3), ("v1", e4), ("v2", e5),
       ("v3", e6), ("vn", e7), ("w_m", e8), ("vibrad", e9)] := by
    simp [saveChannels, REQUIRED_SIGNALS, List.lookup]
  have hfind : ([("i1", e1), ("i2", e2), ("i3", e3), ("v1", e4), ("v2", e5),
       ("v3", e6), ("vn", e7), ("w_m", e8), ("vibrad", e9)] :
      List (String × List ℝ)).find? (fun p => p.2.length != sample_rate) =
        none := by
    rw [List.find?_eq_none]
    intro p hp
    simp only [List.mem_cons, List.not_mem_nil, or_false] at hp
    rcases hp with rfl | rfl | rfl | rfl | rfl | rfl | rfl | rfl | rfl <;>
      simp only [bne_iff_ne, ne_eq, not_not]
    · exact l1
    · exact l2
    · exact l3
    · exact l4
    · exact l5
    · exact l6
    · exact l7
    · exact l8
    · exact l9
  have hmiss : saveMissing
      [("i1", e1), ("i2", e2), ("i3", e3), ("v1", e4), ("v2", e5),
       ("v3", e6), ("vn", e7), ("w_m", e8), ("vibrad", e9)] = [] := by
    unfold saveMissing
    rw [show ([("i1", e1), ("i2", e2), ("i3", e3), ("v1", e4), ("v2", e5),
       ("v3", e6), ("vn", e7), ("w_m", e8), ("vibrad", e9)] :
        List (String × List ℝ)).map Prod.fst =
      REQUIRED_SIGNALS from rfl]
    decide
  have hsave : save_signals
      [("i1", e1), ("i2", e2), ("i3", e3), ("v1", e4), ("v2", e5),
       ("v3", e6), ("vn", e7), ("w_m", e8), ("vibrad", e9)] =
      .ok ⟨some ⟨some
        [⟨"i1".data, e1⟩, ⟨"i2".data, e2⟩, ⟨"i3".data, e3⟩, ⟨"v1".data, e4⟩,
         ⟨"v2".data, e5⟩, ⟨"v3".data, e6⟩, ⟨"vn".data, e7⟩, ⟨"w_m".data, e8⟩,
         ⟨"vibrad".data, e9⟩], []⟩, []⟩ := by
    unfold save_signals
    rw [hmiss, if_neg (by simp), hch, hfind]
    simp only [List.map_cons, List.map_nil]
  refine ⟨_, hsave, ?_, ?_⟩
  · rw [extractSignals_Y9]
    rfl
  · intro p hp
    rw [extractSignals_Y9] at hp
    simp only [List.mem_cons, List.not_mem_nil, or_false] at hp
    rcases hp with rfl | rfl | rfl | rfl | rfl | rfl | rfl | rfl | rfl
    · exact l1
    · exact l2
    · exact l3
    · exact l4
    · exact l5
    · exact l6
    · exact l7
    · exact l8
    · exact l9

/-- C5: for every fault type (healthy, `cassure`, `desiquilibre`) and any
noise vectors of the required length, serializing the synthesized signals
succeeds, and parsing the container back recovers exactly the 9 required
channel names in canonical order, each with a sample sequence of length
exactly 50001. -/
theorem c5_roundtrip (fault : Option FaultType) (ns : Fin 9 → List ℝ)
    (hn : ∀ i, (ns i).length = sample_rate) :
    ∃ cont, save_signals (generate_signals fault ns) = .ok cont ∧
      (extractSignals cont).map Prod.fst = REQUIRED_SIGNALS ∧
      ∀ p ∈ extractSignals cont, p.2.length = 50001 :=
  saveExtract9
    (generate_current_signal 1 (5/100) fault (ns 0))
    (generate_current_signal 1 (5/100) fault (ns 1))
    (generate_current_signal 1 (5/100) fault (ns 2))
    (generate_voltage_signal 220 (1/10) (ns 3))
    (generate_voltage_signal 220 (1/10) (ns 4))
    (generate_voltage_signal 220 (1/10) (ns 5))
    (generate_voltage_signal (1/10) (1/10) (ns 6))
    (generate_speed_signal 1500 (5/100) fault (ns 7))
    (generate_vibration_signal 1 (5/100) fault (ns 8))
    (generate_current_signal_length 1 (5/100) fault (ns 0) (hn 0))
    (generate_current_signal_length 1 (5/100) fault (ns 1) (hn 1))
    (generate_current_signal_length 1 (5/100) fault (ns 2) (hn 2))
    (generate_voltage_signal_length 220 (1/10) (ns 3) (hn 3))
    (generate_voltage_signal_length 220 (1/10) (ns 4) (hn 4))
    (generate_voltage_signal_length 220 (1/10) (ns 5) (hn 5))
    (generate_voltage_signal_length (1/10) (1/10) (ns 6) (hn 6))
    (generate_speed_signal_length 1500 (5/100) fault (ns 7) (hn 7))
    (generate_vibration_signal_length 1 (5/100) fault (ns 8) (hn 8))

/-- Witness for C5 with the healthy fault type and all-zero noise
vectors. -/
theorem c5_roundtrip_witness :
    (∀ i : Fin 9, ((fun (_ : Fin 9) => List.replicate sample_rate (0:ℝ)) i).length =
      sample_rate) ∧
    (∃ cont, save_signals (generate_signals none
        (fun _ => List.replicate sample_rate (0:ℝ))) = .ok cont ∧
      (extractSignals cont).map Prod.fst = REQUIRED_SIGNALS ∧
      ∀ p ∈ extractSignals cont, p.2.length = 50001) :=
  ⟨fun _ => by simp, c5_roundtrip none _ (fun _ => by simp)⟩
